import Mathlib

/-!
Shallow embedding of `src/red/runtime/nodes/context/index.js`, the Node-RED
context scope resolver and storage-backend dispatcher.

Modelling conventions:
* JavaScript objects used as string-keyed maps are insertion-ordered
  association lists `List (String × α)`; property assignment replaces an
  existing entry in place or appends a fresh one (`setKey`), matching
  JavaScript property-write semantics.
* Property values that may be `undefined` are wrapped in `Option`; in the
  backend registry a stored `none` models a property that exists
  (`hasOwnProperty` is true) but holds `undefined`.
* Object identity (JavaScript reference equality) is modelled by a numeric
  `ident` drawn from an allocation counter; backend instances are numeric ids.
* The asynchronous calls the core issues on backends (`open`, `clean`,
  `delete`, and the resolved target of a `get`/`set`/`keys` dispatch) are
  recorded as data instead of being executed.
-/

namespace NodeRed

/-- assign `m[k] = v` with JavaScript object semantics: replace the entry for
`k` in place if present, otherwise append it. -/
def setKey {α : Type} : List (String × α) → String → α → List (String × α)
  | [], k, v => [(k, v)]
  | (k', v') :: rest, k, v =>
      if k' = k then (k, v) :: rest else (k', v') :: setKey rest k v

/-- read `m[k]`: `none` models a property that is not present. -/
def lookupKey {α : Type} : List (String × α) → String → Option α
  | [], _ => none
  | (k', v') :: rest, k => if k' = k then some v' else lookupKey rest k

/-- `m.hasOwnProperty(k)`. -/
def hasKey {α : Type} (m : List (String × α)) (k : String) : Bool :=
  (lookupKey m k).isSome

/-- `delete m[k]`.  (JavaScript objects never hold a key twice, so removing
every occurrence agrees with `delete` on all states the code can build.) -/
def removeKey {α : Type} : List (String × α) → String → List (String × α)
  | [], _ => []
  | (k', v') :: rest, k =>
      if k' = k then removeKey rest k else (k', v') :: removeKey rest k

theorem lookupKey_setKey_self {α : Type} (m : List (String × α)) (k : String) (v : α) :
    lookupKey (setKey m k v) k = some v := by
  induction m with
  | nil => simp [setKey, lookupKey]
  | cons p rest ih =>
      by_cases h : p.1 = k <;> simp [setKey, lookupKey, h, ih]

theorem lookupKey_setKey_ne {α : Type} :
    ∀ (m : List (String × α)) (k k' : String) (v : α), k' ≠ k →
      lookupKey (setKey m k v) k' = lookupKey m k'
  | [], k, k', v, h => by simp [setKey, lookupKey, Ne.symm h]
  | (a, b) :: rest, k, k', v, h => by
      by_cases ha : a = k
      · subst ha
        simp [setKey, lookupKey, Ne.symm h]
      · by_cases h2 : a = k'
        · subst h2
          simp [setKey, lookupKey, ha]
        · simp [setKey, lookupKey, ha, h2, lookupKey_setKey_ne rest k k' v h]

theorem lookupKey_removeKey {α : Type} :
    ∀ (m : List (String × α)) (kk k : String),
      lookupKey (removeKey m kk) k = if k = kk then none else lookupKey m k
  | [], kk, k => by by_cases h : k = kk <;> simp [removeKey, lookupKey, h]
  | (a, b) :: rest, kk, k => by
      by_cases h1 : a = kk
      · subst h1
        by_cases h2 : k = a
        · subst h2
          simp [removeKey, lookupKey_removeKey rest k k]
        · simp [removeKey, lookupKey, h2, Ne.symm h2, lookupKey_removeKey rest a k]
      · by_cases h2 : a = k
        · subst h2
          simp [removeKey, lookupKey, h1, Ne.symm h1]
        · simp [removeKey, lookupKey, h1, h2, lookupKey_removeKey rest kk k]

theorem lookupKey_filter {α : Type} (q : String → Bool) :
    ∀ (m : List (String × α)) (k : String),
      lookupKey (m.filter fun p => q p.1) k = if q k then lookupKey m k else none
  | [], k => by cases hq : q k <;> simp [lookupKey, hq]
  | (k', v') :: rest, k => by
      by_cases hk : k' = k
      · subst hk
        cases hq : q k' <;>
          simp [List.filter_cons, lookupKey, hq, lookupKey_filter q rest k']
      · cases hq : q k' <;>
          simp [List.filter_cons, lookupKey, hq, hk, lookupKey_filter q rest k]

/-! ### Call arguments and backend resolution (index.js lines 124–192) -/

/-- a JavaScript value in an argument position of `get`/`set`/`keys`: absent
(`undefined`), a string, or a function (tagged with an id so distinct
callbacks stay distinguishable). -/
inductive Arg : Type
  | undef : Arg
  | str : String → Arg
  | func : Nat → Arg
  deriving DecidableEq

/-- JavaScript truthiness of an argument (`undefined` and `""` are falsy). -/
def Arg.truthy : Arg → Bool
  | .undef => false
  | .str s => s != ""
  | .func _ => true

/-- `typeof a === "function"`. -/
def Arg.isFunc : Arg → Bool
  | .func _ => true
  | _ => false

/-- the property key JavaScript uses when this value indexes an object
(`undefined` coerces to the string `"undefined"`). -/
def Arg.key : Arg → String
  | .undef => "undefined"
  | .str s => s
  | .func n => "function:" ++ toString n

/-- errors thrown synchronously by the dispatch path. -/
inductive CtxErr : Type
  | contextError : String → CtxErr
  | callbackTypeError : CtxErr
  deriving DecidableEq

/-- result of a computation that can throw/reject. -/
inductive Res (ε α : Type) : Type
  | err : ε → Res ε α
  | ok : α → Res ε α
  deriving DecidableEq

def Res.isErr {ε α : Type} : Res ε α → Bool
  | .err _ => true
  | .ok _ => false

/-- the backend registry `externalContexts`: property values may be
`undefined` (`none`), which `hasOwnProperty` still reports as present. -/
abbrev Registry : Type := List (String × Option Nat)

/-- `getContextStorage(storage)` (index.js lines 124–137): a known name wins,
otherwise fall back to a registered `"default"`, otherwise throw a
`ContextError`.  The returned value is the stored property value, which
JavaScript allows to be `undefined`. -/
def getContextStorage (reg : Registry) (storage : String) : Res CtxErr (Option Nat) :=
  if hasKey reg storage then .ok ((lookupKey reg storage).getD none)
  else if hasKey reg "default" then .ok ((lookupKey reg "default").getD none)
  else .err (.contextError storage)

/-- argument normalization and backend resolution of `obj.get` (index.js
lines 143–158): the result is the backend the read is forwarded to. -/
def getDispatch (reg : Registry) (storage callback : Arg) : Res CtxErr (Option Nat) :=
  if !storage.truthy && !callback.truthy then
    .ok ((lookupKey reg "_").getD none)
  else
    let p : Arg × Arg :=
      if storage.isFunc then (.str "default", storage) else (storage, callback)
    if !p.2.isFunc then .err .callbackTypeError
    else getContextStorage reg p.1.key

/-- argument normalization and backend resolution of `obj.set` (index.js
lines 159–174); unlike `get`, a missing callback is tolerated when a backend
name is given. -/
def setDispatch (reg : Registry) (storage callback : Arg) : Res CtxErr (Option Nat) :=
  if !storage.truthy && !callback.truthy then
    .ok ((lookupKey reg "_").getD none)
  else
    let p : Arg × Arg :=
      if storage.isFunc then (.str "default", storage) else (storage, callback)
    if p.2.truthy && !p.2.isFunc then .err .callbackTypeError
    else getContextStorage reg p.1.key

/-- argument normalization and backend resolution of `obj.keys` (index.js
lines 175–190). -/
def keysDispatch (reg : Registry) (storage callback : Arg) : Res CtxErr (Option Nat) :=
  if !storage.truthy && !callback.truthy then
    .ok ((lookupKey reg "_").getD none)
  else
    let p : Arg × Arg :=
      if storage.isFunc then (.str "default", storage) else (storage, callback)
    if !p.2.isFunc then .err .callbackTypeError
    else getContextStorage reg p.1.key

/-! ### Scope objects and the scope hierarchy cache (index.js lines 27–37, 139–242) -/

/-- a field stored on a scope object: seed data, one of the three accessor
closures (tagged with the scope id it closed over and the operation name), or
a reference to another object identified by its `ident`. -/
inductive FieldVal : Type
  | data : Nat → FieldVal
  | accessor : String → String → FieldVal
  | ref : Nat → FieldVal
  deriving DecidableEq

/-- a JavaScript object with identity: same `ident` means the same object. -/
structure JSObj : Type where
  ident : Nat
  fields : List (String × FieldVal)
  deriving DecidableEq

/-- the three property writes `obj.get = …; obj.set = …; obj.keys = …`
performed by `createContext`, replacing any same-named entries. -/
def setAccessors (fs : List (String × FieldVal)) (scope : String) :
    List (String × FieldVal) :=
  setKey (setKey (setKey fs "get" (.accessor scope "get")) "set" (.accessor scope "set"))
    "keys" (.accessor scope "keys")

/-- `createContext(id, seed)` (index.js lines 139–192): mutates the seed
object itself in place — no copy is taken and no fresh object is allocated —
installing the three accessor closures; only when no seed is given is a fresh
`{}` allocated (advancing the counter). -/
def createContext (id : String) (seed : Option JSObj) (counter : Nat) : JSObj × Nat :=
  match seed with
  | some s => ({ ident := s.ident, fields := setAccessors s.fields id }, counter)
  | none => ({ ident := counter, fields := setAccessors [] id }, counter + 1)

/-- the module-level mutable state `contexts` and `globalContext`, plus the
allocation counter that models object identity. -/
structure CtxState : Type where
  contexts : List (String × JSObj)
  globalContext : Option JSObj
  counter : Nat
  deriving DecidableEq

/-- `init(settings)` (index.js lines 27–37): seed is
`settings.functionGlobalContext || {}`; the global scope is `createContext`
applied to that very object, and it is cached under `"global"`. -/
def init (functionGlobalContext : Option JSObj) (counter : Nat) : CtxState :=
  let sc : JSObj × Nat :=
    match functionGlobalContext with
    | some o => (o, counter)
    | none => ({ ident := counter, fields := [] }, counter + 1)
  let gc : JSObj × Nat := createContext "global" (some sc.1) sc.2
  { contexts := [("global", gc.1)], globalContext := some gc.1, counter := gc.2 }

/-- the backend instance id of the in-memory fallback created by `init`. -/
def memoryId : Nat := 0

/-- the registry `externalContexts` right after `init`: only the fallback. -/
def initRegistry : Registry := [("_", some memoryId)]

/-- `getContext(localId, flowId)` with `flowId` absent (index.js
lines 194–211). -/
def getContextNoFlow (st : CtxState) (localId : String) : JSObj × CtxState :=
  match lookupKey st.contexts localId with
  | some o => (o, st)
  | none =>
      let nc : JSObj × Nat := createContext localId none st.counter
      let nc1 : JSObj :=
        match st.globalContext with
        | some g => { nc.1 with fields := setKey nc.1.fields "global" (.ref g.ident) }
        | none => nc.1
      (nc1, { st with contexts := setKey st.contexts localId nc1, counter := nc.2 })

/-- the context identifier computed from `localId` and an optional `flowId`. -/
def ctxId (localId : String) (flowId : Option String) : String :=
  match flowId with
  | some f => localId ++ ":" ++ f
  | none => localId

/-- `getContext(localId, flowId)` (index.js lines 194–211): cache hit returns
the cached object unchanged; otherwise a scope object is created, its `flow`
link is resolved recursively (which caches the flow scope), its `global` link
is attached when a global scope exists, and the new object is cached. -/
def getContext (st : CtxState) (localId : String) (flowId : Option String) :
    JSObj × CtxState :=
  match flowId with
  | none => getContextNoFlow st localId
  | some f =>
      let contextId := localId ++ ":" ++ f
      match lookupKey st.contexts contextId with
      | some o => (o, st)
      | none =>
          let nc : JSObj × Nat := createContext contextId none st.counter
          let fr : JSObj × CtxState := getContextNoFlow { st with counter := nc.2 } f
          let nc1 : JSObj := { nc.1 with fields := setKey nc.1.fields "flow" (.ref fr.1.ident) }
          let nc2 : JSObj :=
            match fr.2.globalContext with
            | some g => { nc1 with fields := setKey nc1.fields "global" (.ref g.ident) }
            | none => nc1
          (nc2, { fr.2 with contexts := setKey fr.2.contexts contextId nc2 })

/-- `deleteContext(id, flowId)` (index.js lines 213–224).  The second
component records the identifier passed to the fallback backend's `delete`;
`none` is the external-backend branch, which touches nothing and resolves
successfully. -/
def deleteContext (hasExternalContext : Bool) (st : CtxState) (id : String)
    (flowId : Option String) : CtxState × Option String :=
  if hasExternalContext then (st, none)
  else
    ({ st with contexts := removeKey st.contexts (ctxId id flowId) },
     some (ctxId id flowId))

/-- characters before the first `':'`. -/
def takeUntilColon : List Char → List Char
  | [] => []
  | c :: rest => if c = ':' then [] else c :: takeUntilColon rest

/-- the node-id component of a context identifier: `id.split(":")[0]`, the
part of the string before the first `':'` (the whole string when none). -/
def idHead (s : String) : String := ⟨takeUntilColon s.data⟩

/-- `clean(flowConfig)` (index.js lines 226–242): every registered backend's
`clean(Object.keys(flowConfig.allNodes))` is invoked (second component, one
entry per registry entry, in registry order; the returned promise is the
`Promise.all` of exactly these), and every cached scope other than
`"global"` whose leading node-id component is not a live node is removed. -/
def clean (st : CtxState) (reg : Registry) (allNodes : List String) :
    CtxState × List (Option Nat) :=
  ({ st with contexts := st.contexts.filter fun p =>
      p.1 == "global" || allNodes.contains (idHead p.1) },
   reg.map Prod.snd)

/-! ### C1 — dispatch when the backend name is omitted -/

/-- C1 counterexample: with only the fallback `"_"` registered (the state
right after `init`), `get(key, cb)` — a function callback and no backend
name — does not dispatch to the fallback: the name is defaulted to
`"default"` and `getContextStorage` throws a `ContextError`, because no
backend named `"default"` exists.  This refutes the claim that every call
omitting a storage-backend name is dispatched to `"_"`. -/
theorem C1_counterexample :
    getDispatch initRegistry (Arg.func 7) Arg.undef
        = Res.err (CtxErr.contextError "default") ∧
    getDispatch initRegistry (Arg.func 7) Arg.undef
        ≠ Res.ok (some memoryId) := by
  exact ⟨rfl, by decide⟩

/-- C1 (amended): on every scope object, `get`/`set`/`keys` dispatch to the
fallback `"_"` exactly when the caller omits both the backend name and the
callback; when a callback is supplied without a backend name, the name
defaults to `"default"` and resolution goes through `getContextStorage`
(which throws `ContextError` when `"default"` is not registered) rather than
to the fallback. -/
theorem C1_amended_dispatch (reg : Registry) (k : Nat) :
    getDispatch reg Arg.undef Arg.undef = Res.ok ((lookupKey reg "_").getD none) ∧
    setDispatch reg Arg.undef Arg.undef = Res.ok ((lookupKey reg "_").getD none) ∧
    keysDispatch reg Arg.undef Arg.undef = Res.ok ((lookupKey reg "_").getD none) ∧
    getDispatch reg (Arg.func k) Arg.undef = getContextStorage reg "default" ∧
    setDispatch reg (Arg.func k) Arg.undef = getContextStorage reg "default" ∧
    keysDispatch reg (Arg.func k) Arg.undef = getContextStorage reg "default" :=
  ⟨rfl, rfl, rfl, rfl, rfl, rfl⟩

/-! ### `load()` (index.js lines 39–114) -/

/-- the `module` field of a configuration entry: a built-in module name to be
required, or an already-required module function. -/
inductive Mod : Type
  | byName : String → Mod
  | direct : Nat → Mod
  deriving DecidableEq

/-- the value of one `settings.contextStorage` entry: a plain string (only
meaningful as the `"default"` alias) or an object with an optional `module`
field. -/
inductive PluginConf : Type
  | strval : String → PluginConf
  | obj : Option Mod → PluginConf
  deriving DecidableEq

/-- the effectful collaborators of `load`: `require("./"+name)` (`none`
models a throw) and the plugin module function `plugin(config)` (`none`
models a throw).  Successful results are constructor / instance ids. -/
structure Env : Type where
  requireMod : String → Option Nat
  runCtor : Nat → Option Nat

/-- the rejection reasons of `load`, one per `reject(...)` site. -/
inductive LoadErr : Type
  | invalidDefaultModule : String → LoadErr
  | moduleNotLoaded : String → LoadErr
  | loadingModule : String → LoadErr
  | moduleNotDefined : String → LoadErr
  deriving DecidableEq

/-- observable steps of `load`, in program order: a backend instance being
constructed, or a backend's `open()` being invoked. -/
inductive Event : Type
  | construct : String → Nat → Event
  | openBackend : Option Nat → Event
  deriving DecidableEq

def Event.isOpen : Event → Bool
  | .openBackend _ => true
  | _ => false

/-- loop state of the construction loop: the registry, the `defaultIsAlias`
flag, and the trace of events so far. -/
abbrev LState : Type := Registry × Bool × List Event

abbrev Config : Type := List (String × PluginConf)

/-- one iteration of the construction loop (index.js lines 46–91): `"_"` is
skipped; a string-valued `"default"` entry only records the alias after
checking the aliased name exists in the configuration; otherwise the entry
must carry a `module`, which is required (when a name) and then called to
construct the backend instance. -/
def loadStep (env : Env) (plugins : Config) (st : LState) (entry : String × PluginConf) :
    Res LoadErr LState :=
  if entry.1 = "_" then .ok st
  else
    match entry.2 with
    | .strval s =>
        if entry.1 = "default" then
          if hasKey plugins s then .ok (st.1, true, st.2.2)
          else .err (.invalidDefaultModule s)
        else .err (.moduleNotDefined entry.1)
    | .obj none => .err (.moduleNotDefined entry.1)
    | .obj (some (.byName s)) =>
        match env.requireMod s with
        | none => .err (.moduleNotLoaded s)
        | some c =>
            match env.runCtor c with
            | some inst =>
                .ok (setKey st.1 entry.1 (some inst), st.2.1,
                     st.2.2 ++ [.construct entry.1 inst])
            | none => .err (.loadingModule entry.1)
    | .obj (some (.direct c)) =>
        match env.runCtor c with
        | some inst =>
            .ok (setKey st.1 entry.1 (some inst), st.2.1,
                 st.2.2 ++ [.construct entry.1 inst])
        | none => .err (.loadingModule entry.1)

/-- the construction loop: runs `loadStep` over the entries in configuration
order; the second component is the event trace at the point the loop ended
(also on rejection). -/
def runSteps (env : Env) (plugins : Config) :
    List (String × PluginConf) → LState → Res LoadErr LState × List Event
  | [], st => (.ok st, st.2.2)
  | e :: rest, st =>
      match loadStep env plugins st e with
      | .err er => (.err er, st.2.2)
      | .ok st' => runSteps env plugins rest st'

/-- what a successful `load` leaves behind: the registry, the list of
backend-property values whose `open()` was pushed into `Promise.all`, and the
`hasExternalContext` flag. -/
structure LoadResult : Type where
  reg : Registry
  opened : List (Option Nat)
  hasExternalContext : Bool
  deriving DecidableEq

/-- `load()` (index.js lines 39–114).  When `settings.contextStorage` is
falsy the whole plugin block is skipped and only the fallback is opened.
Otherwise the construction loop runs to completion (rejecting on the first
failure, before any `open`), then `open()` is pushed for every property of
`externalContexts` — which always includes the fallback `"_"` from `init` —
then a recorded `"default"` alias is bound to
`externalContexts[plugins["default"]]` (the property value, `undefined` when
that key was never constructed), and finally `hasExternalContext` is set to
`true` whenever the promise list is non-empty. -/
def load (env : Env) (contextStorage : Option Config) (reg0 : Registry)
    (prevHasExternal : Bool) : Res LoadErr LoadResult × List Event :=
  match contextStorage with
  | none =>
      let fb := (lookupKey reg0 "_").getD none
      (.ok { reg := reg0, opened := [fb], hasExternalContext := prevHasExternal },
       [.openBackend fb])
  | some plugins =>
      match runSteps env plugins plugins (reg0, false, []) with
      | (.err e, tr) => (.err e, tr)
      | (.ok st, _) =>
          let reg1 := st.1
          let opened := reg1.map Prod.snd
          let reg2 :=
            if st.2.1 then
              let target : String :=
                match lookupKey plugins "default" with
                | some (.strval s) => s
                | _ => ""
              setKey reg1 "default" ((lookupKey reg1 target).getD none)
            else reg1
          if opened.isEmpty then
            let fb := (lookupKey reg2 "_").getD none
            (.ok { reg := reg2, opened := [fb], hasExternalContext := prevHasExternal },
             st.2.2 ++ opened.map Event.openBackend ++ [.openBackend fb])
          else
            (.ok { reg := reg2, opened := opened, hasExternalContext := true },
             st.2.2 ++ opened.map Event.openBackend)

/-- an environment in which requiring a module and constructing an instance
always throw; loads that succeed under it never touched either. -/
def envTrivial : Env := { requireMod := fun _ => none, runCtor := fun _ => none }

/-! ### C2 — the `"default"` alias invariant -/

/-- C2 (code bug): the configuration `{default: "default"}` passes the eager
alias-existence check (the configuration trivially owns the key `"default"`),
so `load` resolves successfully — yet the alias binding copies
`externalContexts["default"]`, which was never constructed, leaving
`"default"` registered (`hasOwnProperty` true) but bound to `undefined`
rather than to any backend instance.  The spec invariant that a registered
`"default"` always yields a real backend instance is violated. -/
theorem C2_code_bug_eval :
    (load envTrivial (some [("default", PluginConf.strval "default")])
        initRegistry false).1
      = Res.ok { reg := [("_", some memoryId), ("default", none)],
                 opened := [some memoryId], hasExternalContext := true } ∧
    hasKey [("_", some memoryId), ("default", (none : Option Nat))] "default" = true ∧
    lookupKey [("_", some memoryId), ("default", (none : Option Nat))] "default"
      = some none := by
  exact ⟨rfl, rfl, rfl⟩

/-! ### C3 — the `hasExternalContext` flag -/

/-- C3 (code bug): the flag is not `true` iff a non-fallback backend was
configured.  The open loop iterates `externalContexts`, which always contains
the fallback `"_"` after `init`, so the promise list is non-empty whenever
`settings.contextStorage` is truthy at all: a present-but-empty mapping, or
one containing only the reserved `"_"` entry, still sets
`hasExternalContext := true` (first two conjuncts), while only a falsy
`contextStorage` leaves it `false` (third conjunct). -/
theorem C3_code_bug_eval :
    (load envTrivial (some []) initRegistry false).1
      = Res.ok { reg := initRegistry, opened := [some memoryId],
                 hasExternalContext := true } ∧
    (load envTrivial (some [("_", PluginConf.obj none)]) initRegistry false).1
      = Res.ok { reg := initRegistry, opened := [some memoryId],
                 hasExternalContext := true } ∧
    (load envTrivial none initRegistry false).1
      = Res.ok { reg := initRegistry, opened := [some memoryId],
                 hasExternalContext := false } := by
  exact ⟨rfl, rfl, rfl⟩

/-! ### C4 — configuration entries named `"_"` -/

/-- C4 counterexample: a configuration declaring an entry named `"_"` is not
rejected: `load` resolves successfully.  The entry's module is never even
constructed — in `envTrivial` every construction attempt throws, so a
successful load shows the `"_"` entry was skipped, not processed. -/
theorem C4_counterexample :
    (load envTrivial (some [("_", PluginConf.obj (some (Mod.direct 1)))])
        initRegistry false).1
      = Res.ok { reg := initRegistry, opened := [some memoryId],
                 hasExternalContext := true } := by
  exact rfl

/-- C4 (amended): an entry named `"_"` is silently skipped by the
construction loop — processing it leaves the registry, the alias flag and the
event trace unchanged and raises no error — so the reserved fallback cannot
be overridden, but the load is not aborted. -/
theorem C4_amended_skip (env : Env) (plugins : Config) (st : LState) (c : PluginConf) :
    loadStep env plugins st ("_", c) = Res.ok st := by
  simp [loadStep]

/-! ### C5 — no `open()` before construction completes -/

/-- a trace containing no `open` events. -/
def noOpens (l : List Event) : Bool := l.all fun e => !e.isOpen

theorem loadStep_ok_trace (env : Env) (plugins : Config) (st : LState)
    (e : String × PluginConf) (st' : LState) (h : loadStep env plugins st e = .ok st') :
    st'.2.2 = st.2.2 ∨ ∃ n i, st'.2.2 = st.2.2 ++ [Event.construct n i] := by
  unfold loadStep at h
  split at h
  · injection h with h
    subst h
    exact Or.inl rfl
  · split at h
    · split at h
      · split at h
        · injection h with h
          subst h
          exact Or.inl rfl
        · simp at h
      · simp at h
    · simp at h
    · split at h
      · simp at h
      · split at h
        · injection h with h
          subst h
          exact Or.inr ⟨_, _, rfl⟩
        · simp at h
    · split at h
      · injection h with h
        subst h
        exact Or.inr ⟨_, _, rfl⟩
      · simp at h

theorem loadStep_noOpens (env : Env) (plugins : Config) (st : LState)
    (e : String × PluginConf) (st' : LState) (h : loadStep env plugins st e = .ok st')
    (hn : noOpens st.2.2 = true) : noOpens st'.2.2 = true := by
  rcases loadStep_ok_trace env plugins st e st' h with h1 | ⟨n, i, h1⟩
  · rw [h1]; exact hn
  · rw [h1]
    unfold noOpens at hn ⊢
    rw [List.all_append, hn]
    rfl

theorem runSteps_ok_trace (env : Env) (plugins : Config) :
    ∀ (entries : List (String × PluginConf)) (st st' : LState),
      (runSteps env plugins entries st).1 = .ok st' →
      st'.2.2 = (runSteps env plugins entries st).2
  | [], st, st' => by
      intro h
      simp only [runSteps] at h ⊢
      injection h with h
      rw [← h]
  | e :: rest, st, st' => by
      intro h
      simp only [runSteps] at h ⊢
      cases hs : loadStep env plugins st e with
      | err er =>
          rw [hs] at h
          exact Res.noConfusion h
      | ok st1 =>
          rw [hs] at h
          exact runSteps_ok_trace env plugins rest st1 st' h

theorem runSteps_noOpens (env : Env) (plugins : Config) :
    ∀ (entries : List (String × PluginConf)) (st : LState),
      noOpens st.2.2 = true → noOpens (runSteps env plugins entries st).2 = true
  | [], st => by
      intro hn
      simpa [runSteps] using hn
  | e :: rest, st => by
      intro hn
      simp only [runSteps]
      cases hs : loadStep env plugins st e with
      | err er => exact hn
      | ok st1 =>
          exact runSteps_noOpens env plugins rest st1
            (loadStep_noOpens env plugins st e st1 hs hn)

theorem all_isOpen_map (l : List (Option Nat)) :
    (l.map Event.openBackend).all (fun e => e.isOpen) = true := by
  induction l with
  | nil => rfl
  | cons a t ih =>
      rw [List.map_cons, List.all_cons, ih]
      rfl

/-- a trace in which, once an `open` event has occurred, every later event is
also an `open`: all constructions strictly precede all opens. -/
def wellPhased : List Event → Bool
  | [] => true
  | e :: rest => if e.isOpen then rest.all (fun x => x.isOpen) else wellPhased rest

theorem wellPhased_of_all (l : List Event) (h : l.all (fun e => e.isOpen) = true) :
    wellPhased l = true := by
  cases l with
  | nil => rfl
  | cons a rest =>
      rw [List.all_cons, Bool.and_eq_true] at h
      rw [wellPhased, if_pos h.1]
      exact h.2

theorem wellPhased_of_noOpens (l : List Event) (h : noOpens l = true) :
    wellPhased l = true := by
  induction l with
  | nil => rfl
  | cons a rest ih =>
      unfold noOpens at h ih
      rw [List.all_cons, Bool.and_eq_true] at h
      have ha : a.isOpen = false := by
        cases hb : a.isOpen
        · rfl
        · rw [hb] at h; exact absurd h.1 (by simp)
      rw [wellPhased, ha]
      simpa using ih h.2

theorem wellPhased_append (pre l : List Event) (h1 : noOpens pre = true)
    (h2 : l.all (fun e => e.isOpen) = true) : wellPhased (pre ++ l) = true := by
  induction pre with
  | nil => simpa using wellPhased_of_all l h2
  | cons a rest ih =>
      unfold noOpens at h1 ih
      rw [List.all_cons, Bool.and_eq_true] at h1
      have ha : a.isOpen = false := by
        cases hb : a.isOpen
        · rfl
        · rw [hb] at h1; exact absurd h1.1 (by simp)
      rw [List.cons_append, wellPhased, ha]
      simpa using ih h1.2

/-- C5: in every run of `load`, the event trace is well-phased — construction
and validation of every configured entry strictly precede every backend
`open()` — and whenever `load` rejects (invalid `"default"` alias,
unlocatable module, missing `module` field, or throwing constructor), the
trace contains no `open` event at all: no backend was opened. -/
theorem C5_theorem (env : Env) (cs : Option Config) (reg0 : Registry) (prev : Bool) :
    wellPhased (load env cs reg0 prev).2 = true ∧
    (!(load env cs reg0 prev).1.isErr || noOpens (load env cs reg0 prev).2) = true := by
  cases cs with
  | none => exact ⟨rfl, rfl⟩
  | some plugins =>
      cases hr : runSteps env plugins plugins (reg0, false, []) with
      | mk res tr =>
          have hno0 := runSteps_noOpens env plugins plugins (reg0, false, []) rfl
          rw [hr] at hno0
          cases res with
          | err e =>
              constructor
              · simp only [load]
                rw [hr]
                exact wellPhased_of_noOpens tr hno0
              · simp only [load]
                rw [hr]
                simpa [Res.isErr] using hno0
          | ok st =>
              have hok : (runSteps env plugins plugins (reg0, false, [])).1 = .ok st := by
                rw [hr]
              have htr : st.2.2 = tr := by
                have h2 := runSteps_ok_trace env plugins plugins (reg0, false, []) st hok
                rw [hr] at h2
                exact h2
              have hno : noOpens st.2.2 = true := by
                rw [htr]
                exact hno0
              constructor
              · simp only [load]
                rw [hr]
                dsimp only
                by_cases hop : (st.1.map Prod.snd).isEmpty = true
                · rw [if_pos hop]
                  dsimp only
                  rw [List.append_assoc]
                  refine wellPhased_append _ _ hno ?_
                  rw [List.all_append, all_isOpen_map]
                  rfl
                · rw [if_neg hop]
                  dsimp only
                  exact wellPhased_append _ _ hno (all_isOpen_map _)
              · simp only [load]
                rw [hr]
                dsimp only
                by_cases hop : (st.1.map Prod.snd).isEmpty = true
                · rw [if_pos hop]
                  rfl
                · rw [if_neg hop]
                  rfl

/-! ### C6 — reference stability of the scope cache -/

theorem getContextNoFlow_cached (st : CtxState) (l : String) :
    lookupKey ((getContextNoFlow st l).2).contexts l = some (getContextNoFlow st l).1 := by
  unfold getContextNoFlow
  cases h : lookupKey st.contexts l with
  | some o => exact h
  | none =>
      dsimp only
      exact lookupKey_setKey_self _ _ _

theorem getContextNoFlow_global (st : CtxState) (l : String) :
    ((getContextNoFlow st l).2).globalContext = st.globalContext := by
  unfold getContextNoFlow
  cases h : lookupKey st.contexts l with
  | some o => rfl
  | none => rfl

theorem getContextNoFlow_hit (st : CtxState) (l : String) (o : JSObj)
    (h : lookupKey st.contexts l = some o) : getContextNoFlow st l = (o, st) := by
  unfold getContextNoFlow
  rw [h]

theorem getContext_cached (st : CtxState) (l : String) (f : Option String) :
    lookupKey ((getContext st l f).2).contexts (ctxId l f)
      = some (getContext st l f).1 := by
  cases f with
  | none => exact getContextNoFlow_cached st l
  | some f =>
      simp only [getContext, ctxId]
      cases h : lookupKey st.contexts (l ++ ":" ++ f) with
      | some o => exact h
      | none =>
          dsimp only
          exact lookupKey_setKey_self _ _ _

theorem getContext_hit (st : CtxState) (l : String) (f : Option String) (o : JSObj)
    (h : lookupKey st.contexts (ctxId l f) = some o) : getContext st l f = (o, st) := by
  cases f with
  | none => exact getContextNoFlow_hit st l o h
  | some f =>
      have h' : lookupKey st.contexts (l ++ ":" ++ f) = some o := h
      simp only [getContext]
      rw [h']

/-- C6: `getContext` is idempotent: immediately re-requesting the same
`(localId, flowId)` returns the very object the first call cached, with no
state change at all — repeated `getScope(s)` calls are reference-stable until
a `deleteContext` or a `clean` removes the cache entry. -/
theorem C6_theorem (st : CtxState) (l : String) (f : Option String) :
    getContext ((getContext st l f).2) l f = getContext st l f := by
  rw [getContext_hit ((getContext st l f).2) l f (getContext st l f).1
    (getContext_cached st l f)]

/-! ### C7 — parent links of node-level scopes -/

theorem append_colon_ne (n f : String) : n ++ ":" ++ f ≠ f := by
  intro h
  have h1 : (n ++ ":" ++ f).length = f.length := by rw [h]
  rw [String.length_append, String.length_append] at h1
  have h2 : (":" : String).length = 1 := rfl
  rw [h2] at h1
  omega

/-- C7 counterexample: create the node scope `"n1:f1"` (which caches the flow
scope `"f1"` with ident 2 and links `.flow` to it), then sweep with only
`"n1"` live — the sweep removes the cached `"f1"` entry (a flow id is not a
node id) while keeping `"n1:f1"`.  A subsequent `getScope("f1")` allocates a
fresh object (ident 3), so the node scope's `.flow` no longer equals the
object `getScope(flowId)` returns: the claimed invariant fails in this
reachable state. -/
theorem C7_counterexample :
    lookupKey ((getContext (init none 0) "n1" (some "f1")).1).fields "flow"
        = some (FieldVal.ref 2) ∧
    ((getContext (clean ((getContext (init none 0) "n1" (some "f1")).2)
        initRegistry ["n1"]).1 "f1" none).1).ident = 3 ∧
    lookupKey ((getContext (init none 0) "n1" (some "f1")).1).fields "flow"
        ≠ some (FieldVal.ref ((getContext (clean ((getContext (init none 0) "n1"
            (some "f1")).2) initRegistry ["n1"]).1 "f1" none).1).ident) := by
  decide

/-- C7 (amended): at the moment a node-level scope is freshly created (its
identifier not yet cached), its `flow` field references exactly the object
that `getContext(flowId)` returns in the resulting state, and its `global`
field references the global scope when one exists (and is absent otherwise).
The equality persists only while the flow's cache entry survives; a sweep
that removes the flow entry but keeps the node entry breaks it
(`C7_counterexample`). -/
theorem getContextNoFlow_after_set (st' : CtxState) (f cid : String) (o : JSObj)
    (hne : f ≠ cid) :
    getContextNoFlow
      { contexts := setKey ((getContextNoFlow st' f).2).contexts cid o,
        globalContext := ((getContextNoFlow st' f).2).globalContext,
        counter := ((getContextNoFlow st' f).2).counter } f
      = ((getContextNoFlow st' f).1,
         { contexts := setKey ((getContextNoFlow st' f).2).contexts cid o,
           globalContext := ((getContextNoFlow st' f).2).globalContext,
           counter := ((getContextNoFlow st' f).2).counter }) := by
  apply getContextNoFlow_hit
  show lookupKey (setKey ((getContextNoFlow st' f).2).contexts cid o) f
    = some ((getContextNoFlow st' f).1)
  rw [lookupKey_setKey_ne _ _ _ _ hne]
  exact getContextNoFlow_cached st' f

theorem C7_amended (st : CtxState) (n f : String)
    (h : lookupKey st.contexts (n ++ ":" ++ f) = none) :
    lookupKey ((getContext st n (some f)).1).fields "flow"
      = some (FieldVal.ref ((getContext ((getContext st n (some f)).2) f none).1).ident) ∧
    lookupKey ((getContext st n (some f)).1).fields "global"
      = st.globalContext.map fun g => FieldVal.ref g.ident := by
  have hcne : f ≠ n ++ ":" ++ f := fun hh => append_colon_ne n f hh.symm
  simp only [getContext]
  rw [h]
  dsimp only
  rw [getContextNoFlow_after_set _ _ _ _ hcne]
  dsimp only
  rw [getContextNoFlow_global]
  dsimp only
  cases hgl : st.globalContext with
  | none =>
      constructor
      · exact lookupKey_setKey_self _ _ _
      · rw [lookupKey_setKey_ne _ _ _ _ (by decide)]
        rfl
  | some g =>
      constructor
      · rw [lookupKey_setKey_ne _ _ _ _ (by decide)]
        exact lookupKey_setKey_self _ _ _
      · exact lookupKey_setKey_self _ _ _

/-- C7 witness: the amended statement holds at the freshly initialized state
for node `"n1"` in flow `"f1"`. -/
theorem C7_amended_witness :
    lookupKey (init none 0).contexts ("n1" ++ ":" ++ "f1") = none ∧
    (lookupKey ((getContext (init none 0) "n1" (some "f1")).1).fields "flow"
        = some (FieldVal.ref ((getContext ((getContext (init none 0) "n1"
            (some "f1")).2) "f1" none).1).ident) ∧
     lookupKey ((getContext (init none 0) "n1" (some "f1")).1).fields "global"
        = (init none 0).globalContext.map fun g => FieldVal.ref g.ident) :=
  ⟨by decide, C7_amended (init none 0) "n1" "f1" (by decide)⟩

/-! ### C8 — the sweep -/

/-- C8: `clean` removes exactly the cached scopes whose identifier's leading
node-id component is not live — an entry survives iff it was present and is
either `"global"` or has a live head — so `"global"` is never removed; and it
invokes `clean(liveNodeIds)` on every registered backend (one invocation per
registry entry, in order; the promise returned is the `Promise.all` of
exactly these).  The global scope reference is untouched. -/
theorem C8_theorem (st : CtxState) (reg : Registry) (live : List String) :
    (∀ id : String, lookupKey ((clean st reg live).1).contexts id
        = if id == "global" || live.contains (idHead id)
          then lookupKey st.contexts id else none) ∧
    lookupKey ((clean st reg live).1).contexts "global" = lookupKey st.contexts "global" ∧
    (clean st reg live).2 = reg.map Prod.snd ∧
    ((clean st reg live).1).globalContext = st.globalContext := by
  have hall : ∀ id : String, lookupKey ((clean st reg live).1).contexts id
      = if id == "global" || live.contains (idHead id)
        then lookupKey st.contexts id else none := fun id =>
    lookupKey_filter (fun s => s == "global" || live.contains (idHead s))
      st.contexts id
  refine ⟨hall, ?_, rfl, rfl⟩
  rw [hall "global"]
  rfl

/-! ### C9 — per-scope deletion -/

/-- C9: when any external backend is active, `deleteContext` is a no-op that
resolves successfully — the cache is returned unchanged and no backend delete
is issued; when none is, the cached scope for the computed identifier is
removed (all other entries untouched) and the fallback backend's `delete` is
invoked with exactly that identifier. -/
theorem C9_theorem (st : CtxState) (i : String) (f : Option String) :
    deleteContext true st i f = (st, none) ∧
    (deleteContext false st i f).2 = some (ctxId i f) ∧
    (∀ k : String, lookupKey ((deleteContext false st i f).1).contexts k
        = if k = ctxId i f then none else lookupKey st.contexts k) ∧
    ((deleteContext false st i f).1).globalContext = st.globalContext := by
  refine ⟨rfl, rfl, ?_, rfl⟩
  intro k
  exact lookupKey_removeKey st.contexts (ctxId i f) k

/-! ### C10 — the factory mutates the seed in place -/

/-- C10: `createContext` with a seed returns the seed object itself — same
identity, no fresh allocation (the counter is unchanged) — with the `get`,
`set` and `keys` fields written over whatever the seed held under those names
and every other field preserved; consequently the global scope `init` builds
from `settings.functionGlobalContext` is that very object, mutated in place,
and `init` allocates nothing for it. -/
theorem C10_theorem (id : String) (seed : JSObj) (c : Nat) :
    (createContext id (some seed) c).1.ident = seed.ident ∧
    (createContext id (some seed) c).2 = c ∧
    (∀ k : String, lookupKey ((createContext id (some seed) c).1).fields k
        = if k = "keys" then some (FieldVal.accessor id "keys")
          else if k = "set" then some (FieldVal.accessor id "set")
          else if k = "get" then some (FieldVal.accessor id "get")
          else lookupKey seed.fields k) ∧
    (init (some seed) c).globalContext
      = some { ident := seed.ident, fields := setAccessors seed.fields "global" } ∧
    (init (some seed) c).counter = c := by
  refine ⟨rfl, rfl, ?_, rfl, rfl⟩
  intro k
  dsimp only [createContext, setAccessors]
  by_cases h1 : k = "keys"
  · subst h1
    rw [lookupKey_setKey_self, if_pos rfl]
  · rw [if_neg h1, lookupKey_setKey_ne _ _ _ _ h1]
    by_cases h2 : k = "set"
    · subst h2
      rw [lookupKey_setKey_self, if_pos rfl]
    · rw [if_neg h2, lookupKey_setKey_ne _ _ _ _ h2]
      by_cases h3 : k = "get"
      · subst h3
        rw [lookupKey_setKey_self, if_pos rfl]
      · rw [if_neg h3, lookupKey_setKey_ne _ _ _ _ h3]

end NodeRed
